import Mathlib

/-!
Verification development for the `es-bank-account` repository.

The Go source is shallowly embedded: monetary amounts (Go `float64`) are
modelled as exact rationals (`Rat`), Go `int` as `Int` (or `Nat` where the
source value is provably non-negative), Go maps as total functions with the
zero value as default (matching Go's read-of-missing-key semantics), and
fallible Go functions as `Except`/`Option` returns.
-/

set_option maxRecDepth 4000

/-- A UTC instant, as used by the repository: only the civil date and the
second-of-day matter to any function the code calls (`Year`, `YearDay`,
`ISOWeek`, `Weekday`, `IsZero`). Go's zero `time.Time` is year 1, January 1,
00:00:00 UTC. -/
structure GoTime where
  year : Nat
  month : Nat
  day : Nat
  secOfDay : Nat
deriving DecidableEq

namespace GoTime

/-- Go `time.Time.IsZero`: the zero instant (January 1, year 1, 00:00:00). -/
def isZero (t : GoTime) : Bool :=
  t == ⟨1, 1, 1, 0⟩

/-- Go `isLeap` (time package). -/
def isLeap (year : Nat) : Bool :=
  year % 4 == 0 && (year % 100 != 0 || year % 400 == 0)

/-- Go `daysBefore[m-1]`: cumulative days in a non-leap year before month `m`. -/
def daysBefore : Nat → Nat
  | 1 => 0
  | 2 => 31
  | 3 => 59
  | 4 => 90
  | 5 => 120
  | 6 => 151
  | 7 => 181
  | 8 => 212
  | 9 => 243
  | 10 => 273
  | 11 => 304
  | 12 => 334
  | _ => 365

/-- 0-based day of year (the `yday` produced by Go's `Time.date`). -/
def yday0 (t : GoTime) : Nat :=
  daysBefore t.month
    + (if isLeap t.year && decide (3 ≤ t.month) then 1 else 0)
    + (t.day - 1)

/-- Go `Time.Year`. -/
def goYear (t : GoTime) : Nat := t.year

/-- Go `Time.YearDay` (1-based day of year). -/
def goYearDay (t : GoTime) : Nat := yday0 t + 1

/-- Days since January 1 of year 1 (proleptic Gregorian), which was a Monday. -/
def daysSinceYear1 (t : GoTime) : Nat :=
  365 * (t.year - 1)
    + ((t.year - 1) / 4 - (t.year - 1) / 100 + (t.year - 1) / 400)
    + yday0 t

/-- Go `Time.Weekday`: Sunday = 0, ..., Saturday = 6. -/
def goWeekday (t : GoTime) : Nat :=
  (daysSinceYear1 t + 1) % 7

/-- Go `Time.ISOWeek`, translated from the Go 1.15 `time` package (the
repository pins Go 1.15.6). `wday` is the Monday-based weekday; `week` counts
Mondays in the year up to today. The two Nat subtractions are rearranged
non-truncating forms of Go's `(yday - wday + 7)` and `(wday - yday + 7*53)`
(both numerators are positive in Go for every date, so the values agree). -/
def goISOWeek (t : GoTime) : Nat × Nat :=
  let wday := (goWeekday t + 6) % 7
  let yday := yday0 t
  let week := (yday + 7 - wday) / 7
  let jan1wday := (wday + 7 * 53 - yday) % 7
  let week := if 1 ≤ jan1wday ∧ jan1wday ≤ 3 then week + 1 else week
  if week = 0 then
    -- last week of the previous year
    let year := t.year - 1
    let week := if jan1wday = 4 ∨ (jan1wday = 5 ∧ isLeap year) then 53 else 52
    (year, week)
  else if t.month = 12 ∧ 29 ≤ t.day ∧ wday < 3 then
    -- Dec 29-31 after the last Thursday belong to week 1 of the next year
    (t.year + 1, 1)
  else
    (t.year, week)

/-- The Go zero `time.Time`. -/
def zero : GoTime := ⟨1, 1, 1, 0⟩

end GoTime

namespace model

/-- Embeds `model.Transaction` (transaction.go). `LoadAmount` is a Go `float64`,
modelled as an exact rational. -/
structure Transaction where
  ID : String
  CustomerID : String
  LoadAmount : Rat
  Time : GoTime
deriving DecidableEq

end model

namespace account

/-- Embeds `account.TxnFailureCause` is a Go string type. -/
abbrev TxnFailureCause := String

/-- Embeds `account.DuplicateTxn` failure-cause constant. -/
def DuplicateTxn : TxnFailureCause := "DuplicateTxn"

/-- Embeds `account.DailyLimitsExceeded` failure-cause constant. -/
def DailyLimitsExceeded : TxnFailureCause := "DailyLimitsExceeded"

/-- Embeds `account.WeeklyLimitsExceeded` failure-cause constant. -/
def WeeklyLimitsExceeded : TxnFailureCause := "WeeklyLimitsExceeded"

/-- Embeds `account.InsufficientFunds` failure-cause constant. -/
def InsufficientFunds : TxnFailureCause := "InsufficientFunds"

/-- Embeds `account.TxnRecord`: aggregated transaction data for a time bucket.
`NumTxns` is a Go `int`. -/
structure TxnRecord where
  NumTxns : Int
  TotalAmount : Rat
deriving DecidableEq

/-- Embeds `account.State`: the success-event payload. -/
structure State where
  TxnID : String
  CustID : String
  TxnTime : GoTime
  DailyTxn : TxnRecord
  WeeklyTxn : TxnRecord
  TotalAmount : Rat
deriving DecidableEq

/-- Embeds `account.TxnFailure`: the failure-event payload. -/
structure TxnFailure where
  Txn : model.Transaction
  Error : String
  FailureCause : TxnFailureCause
deriving DecidableEq

end account

namespace txn

/-- Embeds `txn.CreateTxnReq` (part of the Transaction Creator). -/
structure CreateTxnReq where
  ID : String
  CustomerID : String
  LoadAmount : String
  Time : String
  TimeFmt : String
deriving DecidableEq

/-- Embeds `txn.CreateTxnFailure`: payload of `TxnCreateFailed`. -/
structure CreateTxnFailure where
  TxnReq : CreateTxnReq
  Error : String
deriving DecidableEq

end txn

/-- The payload universe at the event-store boundary (§6 of the spec): events
carry a JSON-encoded `State`, `TxnFailure`, `Transaction` or
`CreateTxnFailure`, or raw bytes (`TxnRead` lines, `WriteData`). -/
inductive EventData where
  | stateData (state : account.State)
  | failureData (failure : account.TxnFailure)
  | txnData (txn : model.Transaction)
  | createFailData (failure : txn.CreateTxnFailure)
  | rawData (raw : String)
deriving DecidableEq

namespace account

/-- The zero value of `account.State` (all Go fields at their zero values). -/
def zeroState : State :=
  { TxnID := "", CustID := "", TxnTime := GoTime.zero,
    DailyTxn := ⟨0, 0⟩, WeeklyTxn := ⟨0, 0⟩, TotalAmount := 0 }

/-- Go `json.Unmarshal(event.Data(), &State{})` as `applyEvent` performs it:
a `State` payload round-trips; any other payload shape (in particular a
`TxnFailure`, whose field names `Txn`/`Error`/`FailureCause` are disjoint from
`State`'s) leaves every `State` field at its zero value. -/
def decodeState : EventData → State
  | .stateData s => s
  | _ => zeroState

/-- Embeds `account.account`: the per-customer aggregate. The two nested Go maps
`dailyTxn`/`weeklyTxn` are modelled as total functions defaulting to the zero
`TxnRecord`, matching Go's read-of-missing-key semantics (`ensureYear`, which
lazily allocates inner maps before writes, is the identity in this model). -/
structure Account where
  dailyLimits : TxnRecord
  weeklyLimits : TxnRecord
  custID : String
  dailyTxn : Nat → Nat → TxnRecord
  weeklyTxn : Nat → Nat → TxnRecord
  balance : Rat
  txnKeysRecord : List String

/-- Embeds `account.validateLimits`: returns `some (cause, message)` on a failed
check, `none` on success. The cause is blank on the generic limit errors.
(The Go amount message renders the difference with `%.2f`; the numeric
rendering is abstracted as `toString`, but the operand is kept exactly as in
the source — note it quotes `a.dailyLimits` even for weekly checks.) -/
def validateLimits (a : Account) (currValues limits : TxnRecord) :
    Option (TxnFailureCause × String) :=
  if a.balance + currValues.TotalAmount < 0 then
    some (InsufficientFunds, "balance less than zero")
  else if 0 < limits.NumTxns ∧ limits.NumTxns < currValues.NumTxns then
    some ("", "limit exceeded for number of deposits")
  else if 0 < limits.TotalAmount ∧ limits.TotalAmount < currValues.TotalAmount then
    some ("", "limit exceeded for total load-value by: $"
      ++ toString (currValues.TotalAmount - a.dailyLimits.TotalAmount))
  else
    none

/-- The `TxnFailure` published by `checkDuplicateTxn`. -/
def dupFailure (t : model.Transaction) : TxnFailure :=
  { Txn := t, Error := "duplicate transaction", FailureCause := DuplicateTxn }

/-- Embeds `account.checkDuplicateTxn` (the loop over `txnKeysRecord`): `some` is the
published `DuplicateTxn` failure, `none` means the transaction is unique. -/
def checkDuplicateTxn (a : Account) (t : model.Transaction) : Option TxnFailure :=
  if t.ID ∈ a.txnKeysRecord then some (dupFailure t) else none

/-- The trial daily record `d'` formed by `checkDailyLimits`:
`dailyTxn[Year][YearDay]` incremented by this transaction. -/
def dailyTrial (a : Account) (t : model.Transaction) : TxnRecord :=
  let r := a.dailyTxn (GoTime.goYear t.Time) (GoTime.goYearDay t.Time)
  { NumTxns := r.NumTxns + 1, TotalAmount := r.TotalAmount + t.LoadAmount }

/-- The trial weekly record `w'` formed by `checkWeeklyLimits`:
`weeklyTxn[isoYear][isoWeek]` incremented by this transaction. -/
def weeklyTrial (a : Account) (t : model.Transaction) : TxnRecord :=
  let yw := GoTime.goISOWeek t.Time
  let r := a.weeklyTxn yw.1 yw.2
  { NumTxns := r.NumTxns + 1, TotalAmount := r.TotalAmount + t.LoadAmount }

/-- Embeds `account.checkDailyLimits`: `.error` is the published
`AccountLimitExceeded` failure, `.ok` the new daily record. -/
def checkDailyLimits (a : Account) (t : model.Transaction) :
    Except TxnFailure TxnRecord :=
  let dailyTxnRecord := dailyTrial a t
  match validateLimits a dailyTxnRecord a.dailyLimits with
  | some (cause, msg) =>
    let failureCause := if cause = "" then DailyLimitsExceeded else cause
    .error { Txn := t, Error := "failed daily-limits validation: " ++ msg,
             FailureCause := failureCause }
  | none => .ok dailyTxnRecord

/-- Embeds `account.checkWeeklyLimits`: `.error` is the published
`AccountLimitExceeded` failure, `.ok` the new weekly record. -/
def checkWeeklyLimits (a : Account) (t : model.Transaction) :
    Except TxnFailure TxnRecord :=
  let weeklyTxnRecord := weeklyTrial a t
  match validateLimits a weeklyTxnRecord a.weeklyLimits with
  | some (cause, msg) =>
    let failureCause := if cause = "" then WeeklyLimitsExceeded else cause
    .error { Txn := t, Error := "failed weekly-limits validation: " ++ msg,
             FailureCause := failureCause }
  | none => .ok weeklyTxnRecord

/-- The single domain event `handleProcessTxnCmd` emits for a decodable
transaction (the action tag plus its payload). -/
inductive EmittedEvent where
  | accountDeposited (state : State)
  | accountWithdrawn (state : State)
  | duplicateTxn (failure : TxnFailure)
  | accountLimitExceeded (failure : TxnFailure)
deriving DecidableEq

/-- The success-event `State` payload built by `handleProcessTxnCmd`. -/
def successState (a : Account) (t : model.Transaction) (d w : TxnRecord) : State :=
  { TxnID := t.ID, CustID := t.CustomerID, TxnTime := t.Time,
    DailyTxn := d, WeeklyTxn := w, TotalAmount := a.balance + t.LoadAmount }

/-- Embeds `account.handleProcessTxnCmd`, after the aggregate has been rebuilt by
`loadAggregate`, assuming every event-construction and EventRepository
operation succeeds (so the event each check hands to `publishEvent` is the one
emitted). The checks run in the source's order: duplicate, daily, weekly,
then success (`AccountWithdrawn` iff `LoadAmount < 0`). -/
def handleProcessTxnCmd (a : Account) (t : model.Transaction) : EmittedEvent :=
  match checkDuplicateTxn a t with
  | some failure => .duplicateTxn failure
  | none =>
    match checkDailyLimits a t with
    | .error failure => .accountLimitExceeded failure
    | .ok dailyTxnRecord =>
      match checkWeeklyLimits a t with
      | .error failure => .accountLimitExceeded failure
      | .ok weeklyTxnRecord =>
        if t.LoadAmount < 0 then
          .accountWithdrawn (successState a t dailyTxnRecord weeklyTxnRecord)
        else
          .accountDeposited (successState a t dailyTxnRecord weeklyTxnRecord)

/-- Pointwise update of a nested bucket map. -/
def update2 (m : Nat → Nat → TxnRecord) (k1 k2 : Nat) (v : TxnRecord) :
    Nat → Nat → TxnRecord :=
  fun y d => if y = k1 ∧ d = k2 then v else m y d

/-- Embeds `account.applyEvent`: decode the payload as a `State` and install it.
Note the source computes `txnYear, txnWeek := txnUTCTime.ISOWeek()` and then
uses that same `txnYear` (the ISO week-year) as the key of BOTH the daily and
the weekly bucket; `txnDay` is `YearDay()`. -/
def applyEvent (a : Account) (data : EventData) : Account :=
  let state := decodeState data
  let t := state.TxnTime
  let yw := GoTime.goISOWeek t
  let txnYear := yw.1
  let txnWeek := yw.2
  let txnDay := GoTime.goYearDay t
  { a with
    dailyTxn := update2 a.dailyTxn txnYear txnDay state.DailyTxn,
    weeklyTxn := update2 a.weeklyTxn txnYear txnWeek state.WeeklyTxn,
    txnKeysRecord := a.txnKeysRecord ++ [state.TxnID],
    balance := state.TotalAmount }

/-- Embeds `account.loadAggregate`: set `custID` and apply, in order, the payload of
every event fetched for the customer. -/
def loadAggregate (a : Account) (custID : String) (eventsData : List EventData) :
    Account :=
  eventsData.foldl applyEvent { a with custID := custID }

end account

namespace model

/-- Embeds `model.Event` (event.go). The generated UUID and the construction-time
clock are supplied by the caller in this model. -/
structure Event where
  id : String
  aggregateID : String
  correlationKey : String
  time : GoTime
  action : String
  data : EventData
  isReplay : Bool
deriving DecidableEq

/-- Embeds `model.EventCfg`. -/
structure EventCfg where
  AggregateID : String
  CorrelationKey : String
  Time : GoTime
  Action : String
  Data : EventData
  IsReplay : Bool

/-- Embeds `model.NewEvent`: validation requires a non-empty aggregate-id and action;
a zero `Time` is defaulted to the current UTC time (`now`). `id` models the
freshly generated UUID. (JSON-encoding of `Data` cannot fail for the payload
shapes in `EventData`.) -/
def NewEvent (id : String) (now : GoTime) (cfg : EventCfg) : Except String Event :=
  if cfg.AggregateID = "" ∨ cfg.Action = "" then
    .error "error validating config"
  else
    .ok { id := id, aggregateID := cfg.AggregateID,
          correlationKey := cfg.CorrelationKey,
          time := if cfg.Time.isZero then now else cfg.Time,
          action := cfg.Action, data := cfg.Data, isReplay := cfg.IsReplay }

/-- Embeds `model.Cmd` (cmd.go), same shape as `Event` minus aggregate-id/replay.
`data` is `none` when the Go payload slice is nil. -/
structure Cmd where
  id : String
  correlationKey : String
  time : GoTime
  action : String
  data : Option EventData
deriving DecidableEq

end model

namespace account

/-- Embeds `account.publishEvent`: build the event (aggregate-id is the loaded
customer-id, correlation-key the command id, time defaulted to now) before
handing it to `EventRepo.InsertAndPublish`. -/
def publishEvent (a : Account) (id : String) (now : GoTime)
    (correlationKey action : String) (data : EventData) :
    Except String model.Event :=
  model.NewEvent id now
    { AggregateID := a.custID, CorrelationKey := correlationKey,
      Time := GoTime.zero, Action := action, Data := data, IsReplay := false }

end account

namespace eventutil

/-- Embeds `eventutil.MemoryEventStore`: the per-aggregate buckets (a Go map,
modelled as a total function defaulting to the empty slice) and the global
ordered log `eventsIndex`. -/
structure MemoryEventStore where
  store : String → List model.Event
  eventsIndex : List model.Event

/-- Embeds `NewMemoryEventStore`. -/
def emptyEventStore : MemoryEventStore :=
  { store := fun _ => [], eventsIndex := [] }

/-- Embeds `MemoryEventStore.Insert`: an event whose id is already present is
ignored (idempotence); otherwise a blank aggregate-id or zero timestamp is
rejected; otherwise the event is appended to its aggregate bucket and to the
global log. -/
def MemoryEventStore.insert (s : MemoryEventStore) (e : model.Event) :
    Except String MemoryEventStore :=
  if s.eventsIndex.any (fun x => x.id == e.id) then
    .ok s
  else if e.aggregateID = "" then
    .error "aggregate-id is blank"
  else if e.time.isZero then
    .error "time not specified"
  else
    .ok { store := fun agg =>
            if agg = e.aggregateID then s.store e.aggregateID ++ [e]
            else s.store agg,
          eventsIndex := s.eventsIndex ++ [e] }

/-- Embeds `MemoryEventStore.Fetch`. -/
def MemoryEventStore.fetch (s : MemoryEventStore) (aggID : String) :
    List model.Event :=
  s.store aggID

/-- Embeds `MemoryEventStore.FetchByIndex`: all events with global index ≥ `index`.
The Go copy loop builds `eventsIndex[index:]`, which for `index ≤ len` is
`List.drop` (for `index > len` Go would panic constructing a negative-length
slice; no caller does that). -/
def MemoryEventStore.fetchByIndex (s : MemoryEventStore) (index : Nat) :
    List model.Event :=
  if index = s.eventsIndex.length ∨ s.eventsIndex.length = 0 then []
  else s.eventsIndex.drop index

/-- Embeds `MemoryUnpublishedLog.Pop`: scan for the first event with a matching id
and remove it (`append(events[:index], events[index+1:]...)` is removal at
the found index); error when absent. -/
def logPop : List model.Event → model.Event → Except String (List model.Event)
  | [], _ => .error "event not found in log"
  | storedEvent :: rest, e =>
    if e.id == storedEvent.id then
      .ok rest
    else
      match logPop rest e with
      | .ok l => .ok (storedEvent :: l)
      | .error msg => .error msg

/-- A message on the Bus: `model.Cmd` or `model.Event` (any other shape is
rejected by `Publish` before reaching the terminating check). -/
inductive Msg where
  | cmdMsg (c : model.Cmd)
  | eventMsg (e : model.Event)
deriving DecidableEq

/-- The action tag `Publish` extracts from a message. -/
def Msg.action : Msg → String
  | .cmdMsg c => c.action
  | .eventMsg e => e.action

/-- One subscriber of the `MemoryBus`: its channel identity, the `isOpen`
flag, and the messages delivered to it (the capacity-2 blocking of the Go
channel is a liveness property outside this sequential model). -/
structure Subscription where
  channel : Nat
  isOpen : Bool
  pending : List Msg
deriving DecidableEq

/-- Embeds `eventutil.MemoryBus` state. `subscriptions` is the Go
`action → []*subscription` map (total, defaulting to the empty slice);
`nextChannel` models channel identity generation. `trace` is a history
variable — the messages accepted by `Publish`, in acceptance order — used
only in specifications; it is not a field of the Go struct. -/
structure BusState where
  isTerminating : Bool
  subscriptions : String → List Subscription
  nextChannel : Nat
  trace : List Msg

/-- Embeds `NewMemoryBus`. -/
def emptyBus : BusState :=
  { isTerminating := false, subscriptions := fun _ => [],
    nextChannel := 0, trace := [] }

/-- Embeds `MemoryBus.Publish`: fails while terminating, otherwise delivers the
message to every currently open subscriber of its action, in order. -/
def BusState.publish (b : BusState) (m : Msg) : Except String BusState :=
  if b.isTerminating then
    .error "bus is terminating"
  else
    .ok { b with
          subscriptions := fun a =>
            if a = m.action then
              (b.subscriptions m.action).map fun sub =>
                if sub.isOpen then { sub with pending := sub.pending ++ [m] }
                else sub
            else b.subscriptions a,
          trace := b.trace ++ [m] }

/-- Embeds `MemoryBus.Subscribe`: a blank action or a terminating bus is an error;
otherwise a fresh open subscription is appended and its channel returned. -/
def BusState.subscribe (b : BusState) (action : String) :
    Except String (Nat × BusState) :=
  if action = "" then
    .error "action is blank"
  else if b.isTerminating then
    .error "bus is terminating"
  else
    .ok (b.nextChannel,
      { b with
        subscriptions := fun a =>
          if a = action then
            b.subscriptions action
              ++ [{ channel := b.nextChannel, isOpen := true, pending := [] }]
          else b.subscriptions a,
        nextChannel := b.nextChannel + 1 })

/-- Embeds `MemoryBus.Unsubscribe`: error on a blank action or when no subscription
of this action matches the channel; otherwise the Go removal
(`subs[i] = subs[0]; subscriptions[action] = subs[1:]`) closes and removes the
matching subscription. -/
def BusState.unsubscribe (b : BusState) (c : Nat) (action : String) :
    Except String BusState :=
  if action = "" then
    .error "action is blank"
  else
    match b.subscriptions action with
    | [] => .error "no matching subscription found"
    | headSub :: _ =>
      let subs := b.subscriptions action
      match subs.findIdx? (fun sub => sub.channel == c) with
      | none => .error "no matching subscription found"
      | some i =>
        .ok { b with
              subscriptions := fun a =>
                if a = action then (subs.set i headSub).drop 1
                else b.subscriptions a }

/-- Embeds `MemoryBus.Terminate`: idempotent; flips `isTerminating` and empties every
action's subscription slice (each subscriber channel is closed; the spawned
drain tasks are concurrency outside this model). -/
def BusState.terminate (b : BusState) : BusState :=
  if b.isTerminating then b
  else { b with isTerminating := true, subscriptions := fun _ => [] }

/-- Embeds `eventutil.LoggedEventRepo` state: the Bus, the EventStore and the
UnpublishedLog (a `MemoryUnpublishedLog` is its list of queued events). -/
structure RepoState where
  bus : BusState
  eventStore : MemoryEventStore
  unpublishedLog : List model.Event

/-- The loop body of `insertAndPubFromlog` over the `Events()` snapshot:
for each queued event, `EventStore.Insert`, then `Bus.Publish`, then
`UnpublishedLog.Pop`; the first failure stops the loop and surfaces the
error, keeping all state mutations made so far. -/
def insertAndPubSteps : RepoState → List model.Event → RepoState × Option String
  | rs, [] => (rs, none)
  | rs, e :: rest =>
    match rs.eventStore.insert e with
    | .error msg =>
      (rs, some ("error inserting event in event-store: " ++ e.id ++ ": " ++ msg))
    | .ok st =>
      match rs.bus.publish (.eventMsg e) with
      | .error msg =>
        ({ rs with eventStore := st },
         some ("error publishing event to bus: " ++ e.id ++ ": " ++ msg))
      | .ok b =>
        match logPop rs.unpublishedLog e with
        | .error msg =>
          ({ rs with eventStore := st, bus := b },
           some ("error popping event from unpublished-log: " ++ e.id ++ ": " ++ msg))
        | .ok l =>
          insertAndPubSteps { rs with eventStore := st, bus := b, unpublishedLog := l } rest

/-- Embeds `LoggedEventRepo.insertAndPubFromlog`: replay the current snapshot of the
unpublished log. -/
def insertAndPubFromlog (rs : RepoState) : RepoState × Option String :=
  insertAndPubSteps rs rs.unpublishedLog

/-- Embeds `LoggedEventRepo.InsertAndPublish`: append the new event to the
unpublished log, then replay the log. -/
def insertAndPublish (rs : RepoState) (e : model.Event) :
    RepoState × Option String :=
  insertAndPubFromlog { rs with unpublishedLog := rs.unpublishedLog ++ [e] }

end eventutil

namespace txn

/-- Value of a digit sequence (helper for `parseFloat`). -/
def digitsVal (l : List Char) : Nat :=
  l.foldl (fun n c => n * 10 + (c.toNat - 48)) 0

/-- Embeds `strconv.ParseFloat`, restricted to plain decimal notation as Go's
mantissa scanner reads it — optional sign, then digits with an optional
single decimal point and at least one digit overall. Exponents, hex floats,
`inf`/`nan` and digit-separating underscores (all accepted by Go but never
produced by currency strings) are not modelled. The value is exact (`Rat`),
not the nearest binary64. -/
def parseFloat (s : String) : Option Rat :=
  let scanMantissa := fun (cs : List Char) (sign : Rat) =>
    let ip := cs.takeWhile Char.isDigit
    match cs.dropWhile Char.isDigit with
    | [] =>
      if ip ≠ [] then some (sign * (digitsVal ip : Rat)) else none
    | '.' :: frac =>
      if (ip ≠ [] ∨ frac ≠ []) ∧ frac.all Char.isDigit then
        some (sign * ((digitsVal ip : Rat)
          + (digitsVal frac : Rat) / ((10 : Rat) ^ frac.length)))
      else none
    | _ => none
  match s.data with
  | '-' :: cs => scanMantissa cs (-1)
  | '+' :: cs => scanMantissa cs 1
  | cs => scanMantissa cs 1

/-- Numeric value of a digit character. -/
def c2n (c : Char) : Nat := c.toNat - 48

/-- Days in a month (Go `daysIn`), used by `time.Parse` to validate the day. -/
def daysIn (month year : Nat) : Nat :=
  if month = 2 ∧ GoTime.isLeap year then 29
  else GoTime.daysBefore (month + 1) - GoTime.daysBefore month

/-- Go `time.Parse` with the layout `"2006-01-02T15:04:05Z"` (the configured
`TxnRequestTimeFmt`; the trailing `Z` is a literal byte in this layout).
Requires exactly `YYYY-MM-DDThh:mm:ssZ` with in-range month, day (checked
against the month's length), hour, minute and second. -/
def parseRFC3339Z (s : String) : Option GoTime :=
  match s.data with
  | [y1, y2, y3, y4, '-', m1, m2, '-', d1, d2, 'T',
     h1, h2, ':', mi1, mi2, ':', s1, s2, 'Z'] =>
    if [y1, y2, y3, y4, m1, m2, d1, d2, h1, h2, mi1, mi2, s1, s2].all Char.isDigit then
      let year := ((c2n y1 * 10 + c2n y2) * 10 + c2n y3) * 10 + c2n y4
      let month := c2n m1 * 10 + c2n m2
      let day := c2n d1 * 10 + c2n d2
      let hour := c2n h1 * 10 + c2n h2
      let minute := c2n mi1 * 10 + c2n mi2
      let sec := c2n s1 * 10 + c2n s2
      if 1 ≤ month ∧ month ≤ 12 ∧ 1 ≤ day ∧ day ≤ daysIn month year
          ∧ hour ≤ 23 ∧ minute ≤ 59 ∧ sec ≤ 59 then
        some ⟨year, month, day, (hour * 60 + minute) * 60 + sec⟩
      else none
    else none
  | _ => none

/-- The configured default time format (`globalcfg.TxnRequestTimeFmt`). -/
def defaultTimeFmt : String := "2006-01-02T15:04:05Z"

/-- Go `time.Parse`, modelled for the only layout this system ever passes
(requests carry no `time_format` field, so the configured default is always
used); any other layout is left unparseable. -/
def goTimeParse (layout value : String) : Option GoTime :=
  if layout = "2006-01-02T15:04:05Z" then parseRFC3339Z value else none

/-- Embeds `txn.creator.createTxn`, translated clause by clause. Note the source's
emptiness check is `LoadAmount == "" || LoadAmount[1:] == ""` (so every
single-character amount is rejected) and that it then removes EVERY `"$"`
occurrence via `strings.ReplaceAll`, not just a leading one. `none` models a
nil request pointer. -/
def createTxn (fmt : String) (req : Option CreateTxnReq) :
    Except String model.Transaction :=
  match req with
  | none => .error "TransactionRequest cannot be nil"
  | some txnReq =>
    if txnReq.ID = "" then
      .error "TransactionID cannot be empty"
    else if txnReq.CustomerID = "" then
      .error "CustomerID cannot be empty"
    else if txnReq.LoadAmount = "" ∨ txnReq.LoadAmount.drop 1 = "" then
      .error "LoadAmount cannot be empty"
    else
      -- strings.ReplaceAll(s, "$", "") removes every '$' occurrence
      match parseFloat (String.mk (txnReq.LoadAmount.data.filter (fun c => c ≠ '$'))) with
      | none => .error "invalid value for LoadAmount"
      | some loadAmount =>
        let timeFmt := if txnReq.TimeFmt = "" then fmt else txnReq.TimeFmt
        match goTimeParse timeFmt txnReq.Time with
        | none => .error "error parsing time"
        | some parsedTime =>
          .ok { ID := txnReq.ID, CustomerID := txnReq.CustomerID,
                LoadAmount := loadAmount, Time := parsedTime }

/-- The single event `handleCreateTxnCmd` emits for a decodable request. -/
inductive CreatorEmitted where
  | txnCreated (t : model.Transaction)
  | txnCreateFailed (f : CreateTxnFailure)
deriving DecidableEq

/-- Embeds `txn.creator.handleCreateTxnCmd` for a decodable request, assuming the
EventRepository append succeeds: one `TxnCreated` carrying the Transaction on
success, one `TxnCreateFailed` carrying the request and the wrapped error
otherwise. -/
def handleCreateTxnCmd (fmt : String) (req : CreateTxnReq) : CreatorEmitted :=
  match createTxn fmt (some req) with
  | .ok t => .txnCreated t
  | .error e =>
    .txnCreateFailed
      { TxnReq := req,
        Error := "error creating transaction from transaction-request: " ++ e }

end txn

namespace accountview

/-- Embeds `accountview.TxnResultEntry`. -/
structure TxnResultEntry where
  ID : String
  CustomerID : String
  Accepted : Bool
deriving DecidableEq

/-- The zero `model.Transaction`. -/
def zeroTxn : model.Transaction :=
  { ID := "", CustomerID := "", LoadAmount := 0, Time := GoTime.zero }

/-- Go `json.Unmarshal(event.Data(), &TxnFailure{})` as `hydrate` performs
it: a `TxnFailure` payload round-trips; any other payload shape leaves every
field at its zero value (`State` and `TxnFailure` share no field names). -/
def decodeFailure : EventData → account.TxnFailure
  | .failureData f => f
  | _ => { Txn := zeroTxn, Error := "", FailureCause := "" }

/-- Embeds `json.Marshal` of a `TxnResultEntry`, in struct-tag order. (Go escapes
special characters inside strings; ids and customer-ids here are plain, so
quoting is modelled verbatim.) -/
def jsonMarshalEntry (r : TxnResultEntry) : String :=
  "\x7b\"id\":\"" ++ r.ID ++ "\",\"customer_id\":\"" ++ r.CustomerID
    ++ "\",\"accepted\":" ++ (if r.Accepted then "true" else "false") ++ "\x7d"

/-- Embeds `accountview.MemoryTxnResultViewRepo`: the serialized JSON-lines buffer
and the count of events consumed. -/
structure MemoryTxnResultViewRepo where
  serializedIndex : String
  index : Nat
deriving DecidableEq

/-- Embeds `NewMemoryTxnResultViewRepo`. -/
def emptyViewRepo : MemoryTxnResultViewRepo :=
  { serializedIndex := "", index := 0 }

/-- Embeds `MemoryTxnResultViewRepo.Insert`: append the JSON line plus a newline and
bump the index. -/
def MemoryTxnResultViewRepo.insert (rv : MemoryTxnResultViewRepo)
    (r : TxnResultEntry) : MemoryTxnResultViewRepo :=
  { serializedIndex := rv.serializedIndex ++ jsonMarshalEntry r ++ "\n",
    index := rv.index + 1 }

/-- Embeds `MemoryTxnResultViewRepo.Serialized`: the buffer with a trailing newline
removed (`strings.HasSuffix(results, "\n")` for the one-character suffix is a
check of the last character). -/
def MemoryTxnResultViewRepo.serialized (rv : MemoryTxnResultViewRepo) : String :=
  if 0 < rv.serializedIndex.length
      ∧ rv.serializedIndex.data.getLast? = some '\n' then
    rv.serializedIndex.dropRight 1
  else rv.serializedIndex

/-- The `TxnResultEntry` the `hydrate` switch derives from one event
(configured with the standard action tags): accepted for
`AccountDeposited`/`AccountWithdrawn` (from a `State` payload), rejected for
`DuplicateTxn`/`AccountLimitExceeded` (from a `TxnFailure` payload); `none`
is the fatal "event has invalid action" case. -/
def toResultEntry (e : model.Event) : Option TxnResultEntry :=
  if e.action = "AccountDeposited" ∨ e.action = "AccountWithdrawn" then
    let state := account.decodeState e.data
    some { ID := state.TxnID, CustomerID := state.CustID, Accepted := true }
  else if e.action = "DuplicateTxn" ∨ e.action = "AccountLimitExceeded" then
    let failure := decodeFailure e.data
    some { ID := failure.Txn.ID, CustomerID := failure.Txn.CustomerID,
           Accepted := false }
  else none

/-- The event loop of `txnResultView.hydrate`. -/
def hydrateLoop (rv : MemoryTxnResultViewRepo) :
    List model.Event → Except String MemoryTxnResultViewRepo
  | [] => .ok rv
  | e :: rest =>
    match toResultEntry e with
    | none => .error "event has invalid action"
    | some entry => hydrateLoop (rv.insert entry) rest

/-- Embeds `txnResultView.hydrate`: pull the events with index ≥ `resultRepo.Index()`
from the event store and fold them into the view repo. -/
def hydrate (s : eventutil.MemoryEventStore) (rv : MemoryTxnResultViewRepo) :
    Except String MemoryTxnResultViewRepo :=
  hydrateLoop rv (s.fetchByIndex rv.index)

/-- Spec-side (§8): "the concatenation, in event-store order, of the
corresponding TxnResultEntry JSON lines" — one `{id, customer_id, accepted}`
line plus newline per event. Used only to state the projection claim. -/
def specResultLines : List model.Event → String
  | [] => ""
  | e :: rest =>
    (match toResultEntry e with
      | some r => jsonMarshalEntry r ++ "\n"
      | none => "") ++ specResultLines rest

/-- Spec-side (§4.6): "`serialized()` returns the buffer with any trailing
newline removed". -/
def stripTrailingNewline (s : String) : String :=
  if 0 < s.length ∧ s.data.getLast? = some '\n' then s.dropRight 1 else s

end accountview

/-! Concrete fixtures used by witnesses, built from the CLI configuration of
§6 (`dailyAmountLimit=5000`, `dailyCountLimit=3`, `weeklyAmountLimit=20000`,
`weeklyCountLimit=0`) and the spec's scenario data. -/

namespace fixture

/-- The empty nested bucket map. -/
def zeroBuckets : Nat → Nat → account.TxnRecord := fun _ _ => ⟨0, 0⟩

/-- A fresh aggregate for customer 528 under the CLI limits. -/
def baseAccount : account.Account :=
  { dailyLimits := ⟨3, 5000⟩, weeklyLimits := ⟨0, 20000⟩, custID := "528",
    dailyTxn := zeroBuckets, weeklyTxn := zeroBuckets,
    balance := 0, txnKeysRecord := [] }

/-- A deposit of $100 on 2000-01-05 (a plain mid-week date). -/
def txn100 : model.Transaction :=
  { ID := "15887", CustomerID := "528", LoadAmount := 100,
    Time := ⟨2000, 1, 5, 0⟩ }

/-- Embeds `baseAccount` with a daily bucket of (1 txn, $4900) already recorded under
the civil key of 2000-01-05, so `txn100` lands exactly on the $5000 limit. -/
def accountAtLimit : account.Account :=
  { baseAccount with
    dailyTxn := fun y d => if y = 2000 ∧ d = 5 then ⟨1, 4900⟩ else ⟨0, 0⟩ }

/-- Embeds `baseAccount` with a daily bucket of (1 txn, $4901), so `txn100` goes one
unit over the $5000 limit. -/
def accountOverLimit : account.Account :=
  { baseAccount with
    dailyTxn := fun y d => if y = 2000 ∧ d = 5 then ⟨1, 4901⟩ else ⟨0, 0⟩ }

/-- Embeds `baseAccount` with `txn100`'s id already recorded. -/
def accountWithDup : account.Account :=
  { baseAccount with txnKeysRecord := ["15887"] }

/-- An account whose weekly amount bucket for 2000-01-05's ISO week
(2000, week 1) already holds (2 txns, $19950), so `txn100` trips the $20000
weekly amount limit while the daily checks pass. -/
def accountWeeklyFull : account.Account :=
  { baseAccount with
    weeklyTxn := fun y w => if y = 2000 ∧ w = 1 then ⟨2, 19950⟩ else ⟨0, 0⟩ }

/-- Decoded `State` of an accepted transaction at 2000-01-01T00:00:00Z — a
date whose civil year (2000) differs from its ISO week-year (1999). -/
def stateJan1 : account.State :=
  { TxnID := "15887", CustID := "528", TxnTime := ⟨2000, 1, 1, 0⟩,
    DailyTxn := ⟨2, 200⟩, WeeklyTxn := ⟨2, 200⟩, TotalAmount := 200 }

/-- Embeds `baseAccount` after replaying that state event. -/
def replayedJan1 : account.Account :=
  account.applyEvent baseAccount (.stateData stateJan1)

/-- A follow-up $100 deposit on 2000-01-01 for the same customer. -/
def txnJan1 : model.Transaction :=
  { ID := "99999", CustomerID := "528", LoadAmount := 100,
    Time := ⟨2000, 1, 1, 0⟩ }

/-- A transaction request whose load amount is the single character "5". -/
def reqSingleChar : txn.CreateTxnReq :=
  { ID := "14087", CustomerID := "197", LoadAmount := "5",
    Time := "2000-05-01T00:00:00Z", TimeFmt := "" }

/-- A valid event for store/bus/repo witnesses. -/
def ev1 : model.Event :=
  { id := "e1", aggregateID := "528", correlationKey := "c1",
    time := ⟨2000, 1, 5, 0⟩, action := "AccountDeposited",
    data := .stateData stateJan1, isReplay := false }

/-- A `DuplicateTxn` failure event for the same customer. -/
def evDup : model.Event :=
  { id := "e2", aggregateID := "528", correlationKey := "c2",
    time := ⟨2000, 1, 5, 0⟩, action := "DuplicateTxn",
    data := .failureData
      { Txn := txn100, Error := "duplicate transaction",
        FailureCause := account.DuplicateTxn },
    isReplay := false }

/-- A fresh `LoggedEventRepo`. -/
def repo0 : eventutil.RepoState :=
  { bus := eventutil.emptyBus, eventStore := eventutil.emptyEventStore,
    unpublishedLog := [] }

/-- An event store already holding the two events above. -/
def store2 : eventutil.MemoryEventStore :=
  { store := fun agg => if agg = "528" then [ev1, evDup] else [],
    eventsIndex := [ev1, evDup] }

end fixture

/-! ## Theorems -/

-- Sanity checks of the calendar embedding against known facts.
example : GoTime.goWeekday ⟨1970, 1, 1, 0⟩ = 4 := by decide       -- Thursday
example : GoTime.goWeekday ⟨2000, 1, 1, 0⟩ = 6 := by decide       -- Saturday
example : GoTime.goISOWeek ⟨2000, 1, 1, 0⟩ = (1999, 52) := by decide
example : GoTime.goISOWeek ⟨2000, 1, 5, 0⟩ = (2000, 1) := by decide
example : GoTime.goISOWeek ⟨2004, 12, 31, 0⟩ = (2004, 53) := by decide
example : GoTime.goISOWeek ⟨2007, 12, 31, 0⟩ = (2008, 1) := by decide
example : GoTime.goISOWeek ⟨2000, 5, 1, 0⟩ = (2000, 18) := by decide
example : GoTime.goYearDay ⟨2000, 3, 1, 0⟩ = 61 := by decide      -- leap year
example : GoTime.goYearDay ⟨2001, 3, 1, 0⟩ = 60 := by decide

namespace account

/-- C2: `validateLimits(cur, lim)` reports no error iff the balance plus the
trial total is non-negative, the count limit is disabled or respected, and the
amount limit is disabled or respected; a cumulative daily amount exactly at
the limit is accepted, one unit over is rejected with cause
`DailyLimitsExceeded`, and a zero limit never rejects on that axis. -/
theorem validateLimits_spec :
    (∀ (a : Account) (cur lim : TxnRecord),
        validateLimits a cur lim = none ↔
          (0 ≤ a.balance + cur.TotalAmount
            ∧ (lim.NumTxns ≤ 0 ∨ cur.NumTxns ≤ lim.NumTxns)
            ∧ (lim.TotalAmount ≤ 0 ∨ cur.TotalAmount ≤ lim.TotalAmount)))
    ∧ (∀ (a : Account) (t : model.Transaction),
        0 ≤ a.balance + (dailyTrial a t).TotalAmount →
        (a.dailyLimits.NumTxns ≤ 0 ∨ (dailyTrial a t).NumTxns ≤ a.dailyLimits.NumTxns) →
        (dailyTrial a t).TotalAmount = a.dailyLimits.TotalAmount →
        checkDailyLimits a t = .ok (dailyTrial a t))
    ∧ (∀ (a : Account) (t : model.Transaction),
        0 ≤ a.balance + (dailyTrial a t).TotalAmount →
        (a.dailyLimits.NumTxns ≤ 0 ∨ (dailyTrial a t).NumTxns ≤ a.dailyLimits.NumTxns) →
        0 < a.dailyLimits.TotalAmount →
        (dailyTrial a t).TotalAmount = a.dailyLimits.TotalAmount + 1 →
        ∃ f : TxnFailure, checkDailyLimits a t = .error f
          ∧ f.FailureCause = DailyLimitsExceeded ∧ f.Txn = t)
    ∧ (∀ (a : Account) (cur lim : TxnRecord), lim.NumTxns = 0 →
        (validateLimits a cur lim = none ↔
          0 ≤ a.balance + cur.TotalAmount
            ∧ (lim.TotalAmount ≤ 0 ∨ cur.TotalAmount ≤ lim.TotalAmount)))
    ∧ (∀ (a : Account) (cur lim : TxnRecord), lim.TotalAmount = 0 →
        (validateLimits a cur lim = none ↔
          0 ≤ a.balance + cur.TotalAmount
            ∧ (lim.NumTxns ≤ 0 ∨ cur.NumTxns ≤ lim.NumTxns))) := by
  have hmain : ∀ (a : Account) (cur lim : TxnRecord),
      validateLimits a cur lim = none ↔
        (0 ≤ a.balance + cur.TotalAmount
          ∧ (lim.NumTxns ≤ 0 ∨ cur.NumTxns ≤ lim.NumTxns)
          ∧ (lim.TotalAmount ≤ 0 ∨ cur.TotalAmount ≤ lim.TotalAmount)) := by
    intro a cur lim
    unfold validateLimits
    split_ifs with h1 h2 h3
    · exact iff_of_false (by simp) (fun hc => absurd hc.1 (not_le.mpr h1))
    · refine iff_of_false (by simp) (fun hc => ?_)
      rcases hc.2.1 with h | h <;> omega
    · refine iff_of_false (by simp) (fun hc => ?_)
      rcases hc.2.2 with h | h <;> linarith [h3.1, h3.2]
    · refine iff_of_true rfl ⟨not_lt.mp h1, ?_, ?_⟩
      · rcases le_or_lt lim.NumTxns 0 with h | h
        · exact Or.inl h
        · exact Or.inr (by push_neg at h2; omega)
      · rcases le_or_lt lim.TotalAmount 0 with h | h
        · exact Or.inl h
        · push_neg at h3
          exact Or.inr (h3 h)
  refine ⟨hmain, ?_, ?_, ?_, ?_⟩
  · intro a t hbal hnum heq
    have hv : validateLimits a (dailyTrial a t) a.dailyLimits = none :=
      (hmain a _ _).mpr ⟨hbal, hnum, Or.inr (le_of_eq heq)⟩
    simp [checkDailyLimits, hv]
  · intro a t hbal hnum hpos heq
    have hv : validateLimits a (dailyTrial a t) a.dailyLimits =
        some ("", "limit exceeded for total load-value by: $"
          ++ toString ((dailyTrial a t).TotalAmount - a.dailyLimits.TotalAmount)) := by
      unfold validateLimits
      rw [if_neg (not_lt.mpr hbal)]
      rw [if_neg (by rcases hnum with h | h <;> omega :
        ¬(0 < a.dailyLimits.NumTxns ∧ a.dailyLimits.NumTxns < (dailyTrial a t).NumTxns))]
      rw [if_pos ⟨hpos, by linarith⟩]
    refine ⟨⟨t, "failed daily-limits validation: "
        ++ ("limit exceeded for total load-value by: $"
          ++ toString ((dailyTrial a t).TotalAmount - a.dailyLimits.TotalAmount)),
        DailyLimitsExceeded⟩, ?_, rfl, rfl⟩
    simp [checkDailyLimits, hv]
  · intro a cur lim hz
    rw [hmain]
    simp [hz]
  · intro a cur lim hz
    rw [hmain]
    simp [hz]

/-- Witness for C2: with the CLI limits, a $100 deposit landing exactly on a
$5000 daily bucket is accepted. -/
theorem validateLimits_spec_witness :
    checkDailyLimits fixture.accountAtLimit fixture.txn100
      = .ok (dailyTrial fixture.accountAtLimit fixture.txn100) := by
  have hday : GoTime.goYearDay ⟨2000, 1, 5, 0⟩ = 5 := by decide
  have hyr : GoTime.goYear ⟨2000, 1, 5, 0⟩ = 2000 := by decide
  have htrial : dailyTrial fixture.accountAtLimit fixture.txn100 = ⟨2, 5000⟩ := by
    simp [dailyTrial, fixture.accountAtLimit, fixture.baseAccount, fixture.txn100,
      hday, hyr]
    norm_num
  exact validateLimits_spec.2.1 fixture.accountAtLimit fixture.txn100
    (by rw [htrial]; norm_num [fixture.accountAtLimit, fixture.baseAccount])
    (by rw [htrial]; norm_num [fixture.accountAtLimit, fixture.baseAccount])
    (by rw [htrial]; norm_num [fixture.accountAtLimit, fixture.baseAccount])

/-- C1: for a decoded transaction (with every repository operation assumed
successful) the handler emits exactly one of the four account events, chosen
by the first failing check in the fixed order duplicate → daily bucket trial
→ weekly bucket trial → success. -/
theorem handleProcessTxnCmd_cascade (a : Account) (t : model.Transaction) :
    (t.ID ∈ a.txnKeysRecord →
      handleProcessTxnCmd a t = .duplicateTxn (dupFailure t))
    ∧ (t.ID ∉ a.txnKeysRecord →
       ∀ cause msg, validateLimits a (dailyTrial a t) a.dailyLimits = some (cause, msg) →
        handleProcessTxnCmd a t = .accountLimitExceeded
          ⟨t, "failed daily-limits validation: " ++ msg,
            if cause = "" then DailyLimitsExceeded else cause⟩)
    ∧ (t.ID ∉ a.txnKeysRecord →
       validateLimits a (dailyTrial a t) a.dailyLimits = none →
       ∀ cause msg, validateLimits a (weeklyTrial a t) a.weeklyLimits = some (cause, msg) →
        handleProcessTxnCmd a t = .accountLimitExceeded
          ⟨t, "failed weekly-limits validation: " ++ msg,
            if cause = "" then WeeklyLimitsExceeded else cause⟩)
    ∧ (t.ID ∉ a.txnKeysRecord →
       validateLimits a (dailyTrial a t) a.dailyLimits = none →
       validateLimits a (weeklyTrial a t) a.weeklyLimits = none →
        handleProcessTxnCmd a t =
          if t.LoadAmount < 0 then
            .accountWithdrawn (successState a t (dailyTrial a t) (weeklyTrial a t))
          else
            .accountDeposited (successState a t (dailyTrial a t) (weeklyTrial a t))) := by
  refine ⟨fun hdup => ?_, fun hdup cause msg hval => ?_,
          fun hdup hd cause msg hval => ?_, fun hdup hd hw => ?_⟩
  · simp [handleProcessTxnCmd, checkDuplicateTxn, hdup]
  · have h1 : checkDuplicateTxn a t = none := by simp [checkDuplicateTxn, hdup]
    have h2 : checkDailyLimits a t = .error
        ⟨t, "failed daily-limits validation: " ++ msg,
          if cause = "" then DailyLimitsExceeded else cause⟩ := by
      simp [checkDailyLimits, hval]
    simp [handleProcessTxnCmd, h1, h2]
  · have h1 : checkDuplicateTxn a t = none := by simp [checkDuplicateTxn, hdup]
    have h2 : checkDailyLimits a t = .ok (dailyTrial a t) := by
      simp [checkDailyLimits, hd]
    have h3 : checkWeeklyLimits a t = .error
        ⟨t, "failed weekly-limits validation: " ++ msg,
          if cause = "" then WeeklyLimitsExceeded else cause⟩ := by
      simp [checkWeeklyLimits, hval]
    simp [handleProcessTxnCmd, h1, h2, h3]
  · have h1 : checkDuplicateTxn a t = none := by simp [checkDuplicateTxn, hdup]
    have h2 : checkDailyLimits a t = .ok (dailyTrial a t) := by
      simp [checkDailyLimits, hd]
    have h3 : checkWeeklyLimits a t = .ok (weeklyTrial a t) := by
      simp [checkWeeklyLimits, hw]
    simp [handleProcessTxnCmd, h1, h2, h3]

/-- Witness for C1: a repeated transaction id makes the handler emit the
`DuplicateTxn` failure. -/
theorem handleProcessTxnCmd_cascade_witness :
    handleProcessTxnCmd fixture.accountWithDup fixture.txn100
      = .duplicateTxn (dupFailure fixture.txn100) :=
  (handleProcessTxnCmd_cascade fixture.accountWithDup fixture.txn100).1 (by decide)

/-- C5: when the duplicate check and the daily trial pass but the weekly
trial's count or amount check fails, the handler emits `AccountLimitExceeded`
with cause `WeeklyLimitsExceeded` — except `InsufficientFunds` when the
balance plus the weekly trial total is negative. -/
theorem weeklyFailure_cause (a : Account) (t : model.Transaction)
    (hdup : t.ID ∉ a.txnKeysRecord)
    (hdaily : validateLimits a (dailyTrial a t) a.dailyLimits = none)
    (hweek : (0 < a.weeklyLimits.NumTxns
                ∧ a.weeklyLimits.NumTxns < (weeklyTrial a t).NumTxns)
           ∨ (0 < a.weeklyLimits.TotalAmount
                ∧ a.weeklyLimits.TotalAmount < (weeklyTrial a t).TotalAmount)) :
    ∃ f : TxnFailure,
      handleProcessTxnCmd a t = .accountLimitExceeded f ∧ f.Txn = t ∧
      f.FailureCause =
        (if a.balance + (weeklyTrial a t).TotalAmount < 0 then InsufficientFunds
         else WeeklyLimitsExceeded) := by
  have hv : ∃ cause msg,
      validateLimits a (weeklyTrial a t) a.weeklyLimits = some (cause, msg)
      ∧ cause = (if a.balance + (weeklyTrial a t).TotalAmount < 0
                 then InsufficientFunds else "") := by
    unfold validateLimits
    split_ifs with h1 h2 h3
    · exact ⟨_, _, rfl, rfl⟩
    · exact ⟨_, _, rfl, rfl⟩
    · exact ⟨_, _, rfl, rfl⟩
    · rcases hweek with ⟨hw1, hw2⟩ | ⟨hw1, hw2⟩
      · exact absurd ⟨hw1, hw2⟩ h2
      · exact absurd ⟨hw1, hw2⟩ h3
  obtain ⟨cause, msg, hvl, hcause⟩ := hv
  have h1 : checkDuplicateTxn a t = none := by simp [checkDuplicateTxn, hdup]
  have h2 : checkDailyLimits a t = .ok (dailyTrial a t) := by
    simp [checkDailyLimits, hdaily]
  have h3 : checkWeeklyLimits a t = .error
      ⟨t, "failed weekly-limits validation: " ++ msg,
        if cause = "" then WeeklyLimitsExceeded else cause⟩ := by
    simp [checkWeeklyLimits, hvl]
  refine ⟨⟨t, "failed weekly-limits validation: " ++ msg,
      if cause = "" then WeeklyLimitsExceeded else cause⟩,
    by simp [handleProcessTxnCmd, h1, h2, h3], rfl, ?_⟩
  by_cases hb : a.balance + (weeklyTrial a t).TotalAmount < 0
  · rw [if_pos hb] at hcause ⊢
    rw [hcause]
    simp [InsufficientFunds]
  · rw [if_neg hb] at hcause ⊢
    rw [hcause]
    simp

/-- Witness for C5: a $100 deposit that trips the $20000 weekly amount limit
(bucket already at $19950) is rejected with cause `WeeklyLimitsExceeded`. -/
theorem weeklyFailure_cause_witness :
    ∃ f : TxnFailure,
      handleProcessTxnCmd fixture.accountWeeklyFull fixture.txn100
        = .accountLimitExceeded f
      ∧ f.Txn = fixture.txn100
      ∧ f.FailureCause =
        (if fixture.accountWeeklyFull.balance
            + (weeklyTrial fixture.accountWeeklyFull fixture.txn100).TotalAmount < 0
         then InsufficientFunds else WeeklyLimitsExceeded) := by
  have hday : GoTime.goYearDay ⟨2000, 1, 5, 0⟩ = 5 := by decide
  have hyr : GoTime.goYear ⟨2000, 1, 5, 0⟩ = 2000 := by decide
  have hiso : GoTime.goISOWeek ⟨2000, 1, 5, 0⟩ = (2000, 1) := by decide
  have hdtrial : dailyTrial fixture.accountWeeklyFull fixture.txn100 = ⟨1, 100⟩ := by
    simp [dailyTrial, fixture.accountWeeklyFull, fixture.baseAccount,
      fixture.zeroBuckets, fixture.txn100, hday, hyr]
  have hwtrial : weeklyTrial fixture.accountWeeklyFull fixture.txn100
      = ⟨3, 20050⟩ := by
    simp [weeklyTrial, fixture.accountWeeklyFull, fixture.baseAccount,
      fixture.txn100, hiso]
    norm_num
  exact weeklyFailure_cause fixture.accountWeeklyFull fixture.txn100
    (by simp [fixture.accountWeeklyFull, fixture.baseAccount, fixture.txn100])
    (by rw [hdtrial]
        norm_num [validateLimits, fixture.accountWeeklyFull, fixture.baseAccount])
    (by rw [hwtrial]
        norm_num [fixture.accountWeeklyFull, fixture.baseAccount])

/-- C3 (evaluation at the failing input 2000-01-01T00:00:00Z): `applyEvent`
keys the daily record by the ISO week-year returned by `ISOWeek()` (1999 for
this date), not by the civil year (2000) whose key `checkDailyLimits` reads —
so the daily bucket written during replay is NOT found by the subsequent
daily-limit trial, which sees a fresh bucket. -/
theorem applyEvent_dailyKey_iso_not_civil :
    GoTime.goYear ⟨2000, 1, 1, 0⟩ = 2000
    ∧ GoTime.goISOWeek ⟨2000, 1, 1, 0⟩ = (1999, 52)
    ∧ fixture.replayedJan1.dailyTxn 1999 (GoTime.goYearDay ⟨2000, 1, 1, 0⟩)
        = ⟨2, 200⟩
    ∧ fixture.replayedJan1.dailyTxn (GoTime.goYear ⟨2000, 1, 1, 0⟩)
        (GoTime.goYearDay ⟨2000, 1, 1, 0⟩) = ⟨0, 0⟩
    ∧ dailyTrial fixture.replayedJan1 fixture.txnJan1 = ⟨1, 100⟩ := by
  refine ⟨by decide, by decide, by decide, by decide, ?_⟩
  have h0 : fixture.replayedJan1.dailyTxn (GoTime.goYear ⟨2000, 1, 1, 0⟩)
      (GoTime.goYearDay ⟨2000, 1, 1, 0⟩) = ⟨0, 0⟩ := by decide
  simp [dailyTrial, fixture.txnJan1, h0]

/-- C10: failure events are published under the customer's aggregate-id, and
replay decodes every fetched payload as a `State`; a `TxnFailure` payload
decodes to the zero `State`, so a replay whose event sequence ends in a
failure event leaves `balance = 0` (whatever was deposited before) and
appends the empty string to `txnKeysRecord`. -/
theorem replayOfFailureEvents :
    (∀ (a : Account) (id : String) (now : GoTime) (ck action : String)
        (data : EventData) (e : model.Event),
        publishEvent a id now ck action data = .ok e → e.aggregateID = a.custID)
    ∧ (∀ (a : Account) (custID : String) (eventsData : List EventData)
        (f : TxnFailure),
        (loadAggregate a custID (eventsData ++ [.failureData f])).balance = 0
        ∧ (loadAggregate a custID (eventsData ++ [.failureData f])).txnKeysRecord
            = (loadAggregate a custID eventsData).txnKeysRecord ++ [""]) := by
  constructor
  · intro a id now ck action data e h
    unfold publishEvent model.NewEvent at h
    split_ifs at h with hc ht
    all_goals
      first
        | exact Except.noConfusion h
        | (injection h with h2; subst h2; rfl)
  · intro a custID eventsData f
    constructor
    · simp [loadAggregate, List.foldl_append, applyEvent, decodeState, zeroState]
    · simp [loadAggregate, List.foldl_append, applyEvent, decodeState, zeroState]

/-- Witness for C10: a concrete failure event is created under the loaded
customer's aggregate-id. -/
theorem replayOfFailureEvents_witness :
    (model.Event.mk "ev1" "528" "cmd1" ⟨2000, 1, 5, 0⟩ "DuplicateTxn"
        (.rawData "") false).aggregateID = fixture.baseAccount.custID :=
  replayOfFailureEvents.1 fixture.baseAccount "ev1" ⟨2000, 1, 5, 0⟩ "cmd1"
    "DuplicateTxn" (.rawData "") _ rfl

end account

namespace txn

/-- C4 (evaluation at the failing input): the request
`{id:"14087", customer_id:"197", load_amount:"5", time:"2000-05-01T00:00:00Z"}`
satisfies the claim's validity premise — its load amount "5" is non-empty,
parses as a float after stripping a (here absent) leading `$`, and its time
parses under the default format — yet `createTxn` rejects it through the
`LoadAmount[1:] == ""` slice check, so the creator emits `TxnCreateFailed`
instead of the `TxnCreated` the claim requires. -/
theorem createTxn_singleCharAmount_rejected :
    parseFloat "5" = some 5
    ∧ parseRFC3339Z "2000-05-01T00:00:00Z" = some ⟨2000, 5, 1, 0⟩
    ∧ createTxn defaultTimeFmt (some fixture.reqSingleChar)
        = .error "LoadAmount cannot be empty"
    ∧ handleCreateTxnCmd defaultTimeFmt fixture.reqSingleChar
        = .txnCreateFailed
          { TxnReq := fixture.reqSingleChar,
            Error := "error creating transaction from transaction-request: "
              ++ "LoadAmount cannot be empty" } := by
  refine ⟨?_, by decide, rfl, rfl⟩
  have h : parseFloat "5" = some ((1 : Rat) * ((digitsVal ['5'] : Nat) : Rat)) := rfl
  have h2 : digitsVal ['5'] = 5 := by decide
  rw [h, h2]
  norm_num

end txn

namespace eventutil

/-- C8: `EventStore.Insert` is idempotent — a second insert of an event whose
id is already stored returns the same state — and rejects any new event whose
aggregate-id is blank or whose timestamp is zero. -/
theorem eventStore_insert_idempotent :
    (∀ (s s' : MemoryEventStore) (e : model.Event),
        s.insert e = .ok s' → s'.insert e = .ok s')
    ∧ (∀ (s : MemoryEventStore) (e : model.Event),
        ¬ s.eventsIndex.any (fun x => x.id == e.id) = true →
        (e.aggregateID = "" ∨ e.time.isZero = true) →
        ∃ msg, s.insert e = .error msg) := by
  constructor
  · intro s s' e h
    unfold MemoryEventStore.insert at h
    split_ifs at h with h1 h2 h3
    all_goals
      first
        | exact Except.noConfusion h
        | (injection h with h'
           subst h'
           unfold MemoryEventStore.insert
           first
             | rw [if_pos h1]
             | rw [if_pos (by simp :
                 ((s.eventsIndex ++ [e]).any (fun x => x.id == e.id)) = true)])
  · intro s e h1 h2
    unfold MemoryEventStore.insert
    rw [if_neg h1]
    by_cases hagg : e.aggregateID = ""
    · rw [if_pos hagg]
      exact ⟨_, rfl⟩
    · rcases h2 with h | h
      · exact absurd h hagg
      · rw [if_neg hagg, if_pos h]
        exact ⟨_, rfl⟩

/-- Witness for C8: the empty store rejects a fresh event with a blank
aggregate-id. -/
theorem eventStore_insert_idempotent_witness :
    ∃ msg, emptyEventStore.insert
      (model.Event.mk "e9" "" "c9" ⟨2000, 1, 5, 0⟩ "TxnRead" (.rawData "x") false)
      = .error msg :=
  eventStore_insert_idempotent.2 emptyEventStore
    (model.Event.mk "e9" "" "c9" ⟨2000, 1, 5, 0⟩ "TxnRead" (.rawData "x") false)
    (by decide) (Or.inl rfl)

/-- C7 counterexample: obtain a receiver, terminate the bus, then unsubscribe
that receiver — the call returns an error instead of completing without
error (terminate cleared the action's subscription list). -/
theorem unsubscribe_after_terminate_cex :
    ∃ b1 : BusState,
      emptyBus.subscribe "TxnRead" = .ok (0, b1)
      ∧ b1.terminate.unsubscribe 0 "TxnRead"
          = .error "no matching subscription found" := by
  refine ⟨_, rfl, ?_⟩
  rfl

/-- C7 amended: after `terminate()` on a running bus, every subsequent
publish of a Command/Event message returns the "bus is terminating" error,
every subsequent subscribe returns an error, and unsubscribe of any
previously obtained receiver also returns an error (the subscription lists
were cleared); `terminate` itself is idempotent. -/
theorem bus_after_terminate (b : BusState) (hb : b.isTerminating = false)
    (m : Msg) (c : Nat) (action : String) :
    b.terminate.publish m = .error "bus is terminating"
    ∧ (∃ msg, b.terminate.subscribe action = .error msg)
    ∧ (∃ msg, b.terminate.unsubscribe c action = .error msg)
    ∧ b.terminate.terminate = b.terminate := by
  have hterm : b.terminate
      = { b with isTerminating := true, subscriptions := fun _ => [] } := by
    unfold BusState.terminate
    rw [if_neg (by simp [hb])]
  refine ⟨?_, ?_, ?_, ?_⟩
  · rw [hterm]
    unfold BusState.publish
    rw [if_pos rfl]
  · rw [hterm]
    unfold BusState.subscribe
    by_cases ha : action = ""
    · rw [if_pos ha]
      exact ⟨_, rfl⟩
    · rw [if_neg ha]
      exact ⟨_, by rw [if_pos rfl]⟩
  · rw [hterm]
    unfold BusState.unsubscribe
    by_cases ha : action = ""
    · rw [if_pos ha]
      exact ⟨_, rfl⟩
    · rw [if_neg ha]
      exact ⟨_, rfl⟩
  · rw [hterm]
    unfold BusState.terminate
    rw [if_pos rfl]

/-- Witness for C7's amended statement, at a concrete running bus. -/
theorem bus_after_terminate_witness :
    emptyBus.terminate.publish (.eventMsg fixture.ev1) = .error "bus is terminating"
    ∧ (∃ msg, emptyBus.terminate.subscribe "TxnRead" = .error msg)
    ∧ (∃ msg, emptyBus.terminate.unsubscribe 0 "TxnRead" = .error msg)
    ∧ emptyBus.terminate.terminate = emptyBus.terminate :=
  bus_after_terminate emptyBus rfl (.eventMsg fixture.ev1) 0 "TxnRead"

/-- A successful `Insert` keeps every previously stored event. -/
theorem insert_ok_mono {s s' : MemoryEventStore} {e : model.Event}
    (h : s.insert e = .ok s') :
    ∀ y ∈ s.eventsIndex, y ∈ s'.eventsIndex := by
  unfold MemoryEventStore.insert at h
  split_ifs at h
  all_goals
    first
      | exact Except.noConfusion h
      | (injection h with h'
         subst h'
         intro y hy
         simp [hy])

/-- A successful `Insert` leaves an event with the inserted id in the log. -/
theorem insert_ok_id {s s' : MemoryEventStore} {e : model.Event}
    (h : s.insert e = .ok s') :
    ∃ y ∈ s'.eventsIndex, y.id = e.id := by
  unfold MemoryEventStore.insert at h
  split_ifs at h with h1
  all_goals
    first
      | exact Except.noConfusion h
      | (injection h with h'
         subst h'
         first
           | (obtain ⟨y, hy, hid⟩ := List.any_eq_true.mp h1
              exact ⟨y, hy, (by simpa using hid)⟩)
           | exact ⟨e, by simp, rfl⟩)

/-- A successful `Publish` appends the message to the delivery history. -/
theorem publish_ok_trace {b b' : BusState} {m : Msg}
    (h : b.publish m = .ok b') : b'.trace = b.trace ++ [m] := by
  unfold BusState.publish at h
  split_ifs at h
  all_goals
    first
      | exact Except.noConfusion h
      | (injection h with h'
         subst h'
         rfl)

/-- Popping the head event removes exactly it. -/
theorem logPop_cons_self (e : model.Event) (rest : List model.Event) :
    logPop (e :: rest) e = .ok rest := by
  simp [logPop]

/-- On success, the replay loop publishes exactly the processed events, in
order. -/
theorem insertAndPubSteps_trace (l : List model.Event) :
    ∀ (rs rs' : RepoState), insertAndPubSteps rs l = (rs', none) →
      rs'.bus.trace = rs.bus.trace ++ l.map Msg.eventMsg := by
  induction l with
  | nil =>
    intro rs rs' h
    simp only [insertAndPubSteps] at h
    injection h with h1 h2
    subst h1
    simp
  | cons e rest ih =>
    intro rs rs' h
    simp only [insertAndPubSteps] at h
    cases hins : rs.eventStore.insert e with
    | error m => rw [hins] at h; exact absurd h (by simp)
    | ok st =>
      rw [hins] at h
      cases hpub : rs.bus.publish (.eventMsg e) with
      | error m => rw [hpub] at h; exact absurd h (by simp)
      | ok b =>
        rw [hpub] at h
        cases hpop : logPop rs.unpublishedLog e with
        | error m => rw [hpop] at h; exact absurd h (by simp)
        | ok lg =>
          rw [hpop] at h
          have ht := ih _ _ h
          have hb := publish_ok_trace hpub
          simp only [ht, hb]
          simp

/-- The replay loop never drops stored events, whatever its outcome. -/
theorem insertAndPubSteps_store_mono (l : List model.Event) :
    ∀ (rs rs' : RepoState) (res : Option String),
      insertAndPubSteps rs l = (rs', res) →
      ∀ y ∈ rs.eventStore.eventsIndex, y ∈ rs'.eventStore.eventsIndex := by
  induction l with
  | nil =>
    intro rs rs' res h
    simp only [insertAndPubSteps] at h
    injection h with h1 h2
    subst h1
    exact fun y hy => hy
  | cons e rest ih =>
    intro rs rs' res h
    simp only [insertAndPubSteps] at h
    cases hins : rs.eventStore.insert e with
    | error m =>
      rw [hins] at h
      injection h with h1 h2
      subst h1
      exact fun y hy => hy
    | ok st =>
      rw [hins] at h
      cases hpub : rs.bus.publish (.eventMsg e) with
      | error m =>
        rw [hpub] at h
        injection h with h1 h2
        subst h1
        exact insert_ok_mono hins
      | ok b =>
        rw [hpub] at h
        cases hpop : logPop rs.unpublishedLog e with
        | error m =>
          rw [hpop] at h
          injection h with h1 h2
          subst h1
          exact insert_ok_mono hins
        | ok lg =>
          rw [hpop] at h
          intro y hy
          exact ih _ _ _ h y (insert_ok_mono hins y hy)

/-- On success, every processed event has its id in the final store. -/
theorem insertAndPubSteps_store_ids (l : List model.Event) :
    ∀ (rs rs' : RepoState), insertAndPubSteps rs l = (rs', none) →
      ∀ x ∈ l, ∃ y ∈ rs'.eventStore.eventsIndex, y.id = x.id := by
  induction l with
  | nil =>
    intro rs rs' h x hx
    exact absurd hx (by simp)
  | cons e rest ih =>
    intro rs rs' h x hx
    simp only [insertAndPubSteps] at h
    cases hins : rs.eventStore.insert e with
    | error m => rw [hins] at h; exact absurd h (by simp)
    | ok st =>
      rw [hins] at h
      cases hpub : rs.bus.publish (.eventMsg e) with
      | error m => rw [hpub] at h; exact absurd h (by simp)
      | ok b =>
        rw [hpub] at h
        cases hpop : logPop rs.unpublishedLog e with
        | error m => rw [hpop] at h; exact absurd h (by simp)
        | ok lg =>
          rw [hpop] at h
          rcases List.mem_cons.mp hx with hxe | hxr
          · subst hxe
            obtain ⟨y, hy, hid⟩ := insert_ok_id hins
            exact ⟨y, insertAndPubSteps_store_mono rest _ _ _ h y hy, hid⟩
          · exact ih _ _ h x hxr

/-- On success, the replay loop leaves the unpublished log empty (when it
processes the log's own snapshot). -/
theorem insertAndPubSteps_log_empty (l : List model.Event) :
    ∀ (rs rs' : RepoState), rs.unpublishedLog = l →
      insertAndPubSteps rs l = (rs', none) → rs'.unpublishedLog = [] := by
  induction l with
  | nil =>
    intro rs rs' hlog h
    simp only [insertAndPubSteps] at h
    injection h with h1 h2
    subst h1
    exact hlog
  | cons e rest ih =>
    intro rs rs' hlog h
    simp only [insertAndPubSteps] at h
    cases hins : rs.eventStore.insert e with
    | error m => rw [hins] at h; exact absurd h (by simp)
    | ok st =>
      rw [hins] at h
      cases hpub : rs.bus.publish (.eventMsg e) with
      | error m => rw [hpub] at h; exact absurd h (by simp)
      | ok b =>
        rw [hpub] at h
        cases hpop : logPop rs.unpublishedLog e with
        | error m =>
          rw [hlog, logPop_cons_self] at hpop
          exact Except.noConfusion hpop
        | ok lg =>
          rw [hpop] at h
          rw [hlog, logPop_cons_self] at hpop
          injection hpop with hlg
          exact ih _ _ (by simpa using hlg.symm) h

/-- On failure, the unpublished log retains a non-empty suffix of the
snapshot (the failed event and everything after it). -/
theorem insertAndPubSteps_fail_suffix (l : List model.Event) :
    ∀ (rs rs' : RepoState) (m : String), rs.unpublishedLog = l →
      insertAndPubSteps rs l = (rs', some m) →
      ∃ k, k < l.length ∧ rs'.unpublishedLog = l.drop k := by
  induction l with
  | nil =>
    intro rs rs' m hlog h
    simp only [insertAndPubSteps] at h
    exact absurd h (by simp)
  | cons e rest ih =>
    intro rs rs' m hlog h
    simp only [insertAndPubSteps] at h
    cases hins : rs.eventStore.insert e with
    | error msg =>
      rw [hins] at h
      injection h with h1 h2
      subst h1
      exact ⟨0, by simp, by simpa using hlog⟩
    | ok st =>
      rw [hins] at h
      cases hpub : rs.bus.publish (.eventMsg e) with
      | error msg =>
        rw [hpub] at h
        injection h with h1 h2
        subst h1
        exact ⟨0, by simp, by simpa using hlog⟩
      | ok b =>
        rw [hpub] at h
        cases hpop : logPop rs.unpublishedLog e with
        | error msg =>
          rw [hlog, logPop_cons_self] at hpop
          exact Except.noConfusion hpop
        | ok lg =>
          rw [hpop] at h
          rw [hlog, logPop_cons_self] at hpop
          injection hpop with hlg
          obtain ⟨k, hk, hdrop⟩ := ih _ _ _ (by simpa using hlg.symm) h
          exact ⟨k + 1, by simpa using hk, by simpa using hdrop⟩

/-- C6: a successful `InsertAndPublish(e)` leaves an event with `e`'s id in
the EventStore, has published `e` on the Bus, and leaves the UnpublishedLog
empty; a failed call keeps the failed event (and everything queued after it)
in the log; and any successful call publishes the whole backlog in order
before the new event. -/
theorem insertAndPublish_outbox :
    (∀ (rs : RepoState) (e : model.Event) (rs' : RepoState),
        insertAndPublish rs e = (rs', none) →
          (∃ y ∈ rs'.eventStore.eventsIndex, y.id = e.id)
          ∧ Msg.eventMsg e ∈ rs'.bus.trace
          ∧ rs'.unpublishedLog = [])
    ∧ (∀ (rs : RepoState) (e : model.Event) (rs' : RepoState) (msg : String),
        insertAndPublish rs e = (rs', some msg) →
          ∃ k, k < (rs.unpublishedLog ++ [e]).length
            ∧ rs'.unpublishedLog = (rs.unpublishedLog ++ [e]).drop k)
    ∧ (∀ (rs : RepoState) (e : model.Event) (rs' : RepoState),
        insertAndPublish rs e = (rs', none) →
          rs'.bus.trace = rs.bus.trace
            ++ (rs.unpublishedLog ++ [e]).map Msg.eventMsg) := by
  refine ⟨?_, ?_, ?_⟩
  · intro rs e rs' h
    unfold insertAndPublish insertAndPubFromlog at h
    have h' : insertAndPubSteps { rs with unpublishedLog := rs.unpublishedLog ++ [e] }
        (rs.unpublishedLog ++ [e]) = (rs', none) := h
    refine ⟨insertAndPubSteps_store_ids _ _ _ h' e (by simp), ?_,
      insertAndPubSteps_log_empty _ _ _ rfl h'⟩
    have ht := insertAndPubSteps_trace _ _ _ h'
    rw [ht]
    simp
  · intro rs e rs' msg h
    unfold insertAndPublish insertAndPubFromlog at h
    have h' : insertAndPubSteps { rs with unpublishedLog := rs.unpublishedLog ++ [e] }
        (rs.unpublishedLog ++ [e]) = (rs', some msg) := h
    exact insertAndPubSteps_fail_suffix _ _ _ _ rfl h'
  · intro rs e rs' h
    unfold insertAndPublish insertAndPubFromlog at h
    have h' : insertAndPubSteps { rs with unpublishedLog := rs.unpublishedLog ++ [e] }
        (rs.unpublishedLog ++ [e]) = (rs', none) := h
    have ht := insertAndPubSteps_trace _ _ _ h'
    exact ht

/-- Witness for C6: inserting a valid event into a fresh repository succeeds,
stores it, publishes it and leaves the outbox log empty. -/
theorem insertAndPublish_outbox_witness :
    (∃ y ∈ (insertAndPublish fixture.repo0 fixture.ev1).1.eventStore.eventsIndex,
        y.id = fixture.ev1.id)
    ∧ Msg.eventMsg fixture.ev1 ∈ (insertAndPublish fixture.repo0 fixture.ev1).1.bus.trace
    ∧ (insertAndPublish fixture.repo0 fixture.ev1).1.unpublishedLog = [] :=
  insertAndPublish_outbox.1 fixture.repo0 fixture.ev1 _ rfl

end eventutil

namespace accountview

/-- For a cursor within bounds, `FetchByIndex` returns the suffix of the
global log from that index on. -/
theorem fetchByIndex_eq_drop (s : eventutil.MemoryEventStore) (i : Nat)
    (_hi : i ≤ s.eventsIndex.length) :
    s.fetchByIndex i = s.eventsIndex.drop i := by
  unfold eventutil.MemoryEventStore.fetchByIndex
  split_ifs with h
  · rcases h with h | h
    · rw [h, List.drop_length]
    · rw [List.length_eq_zero.mp h]
      simp
  · rfl

/-- The function `specResultLines` distributes over concatenation. -/
theorem specResultLines_append (l1 l2 : List model.Event) :
    specResultLines (l1 ++ l2) = specResultLines l1 ++ specResultLines l2 := by
  induction l1 with
  | nil => simp [specResultLines]
  | cons e rest ih =>
    simp only [List.cons_append, specResultLines, List.append_eq]
    rw [ih, String.append_assoc]

/-- The hydrate loop consumes every recognized event, bumping the index once
and appending one JSON line per event. -/
theorem hydrateLoop_spec (l : List model.Event) :
    ∀ rv : MemoryTxnResultViewRepo,
      (∀ e ∈ l, (toResultEntry e).isSome) →
      ∃ rv', hydrateLoop rv l = .ok rv'
        ∧ rv'.index = rv.index + l.length
        ∧ rv'.serializedIndex = rv.serializedIndex ++ specResultLines l := by
  induction l with
  | nil =>
    intro rv _
    refine ⟨rv, rfl, by simp, ?_⟩
    simp [specResultLines]
  | cons e rest ih =>
    intro rv hall
    obtain ⟨r, hr⟩ := Option.isSome_iff_exists.mp (hall e (by simp))
    obtain ⟨rv', hloop, hidx, hser⟩ :=
      ih (rv.insert r) (fun x hx => hall x (by simp [hx]))
    refine ⟨rv', ?_, ?_, ?_⟩
    · simp only [hydrateLoop, hr]
      exact hloop
    · rw [hidx]
      simp [MemoryTxnResultViewRepo.insert]
      omega
    · rw [hser]
      simp [MemoryTxnResultViewRepo.insert, specResultLines, hr,
        String.append_assoc]

/-- C9: a view whose buffer holds the JSON lines of the first `index` events
is completed by `hydrate` to hold, in event-store order, the JSON line of
every stored event — `accepted=true` for `AccountDeposited`/`AccountWithdrawn`
payloads, `accepted=false` for `DuplicateTxn`/`AccountLimitExceeded` — and
`serialized()` is that concatenation with the trailing newline removed. -/
theorem hydrate_serialized (s : eventutil.MemoryEventStore)
    (rv : MemoryTxnResultViewRepo)
    (hall : ∀ e ∈ s.eventsIndex, (toResultEntry e).isSome)
    (hi : rv.index ≤ s.eventsIndex.length)
    (hbuf : rv.serializedIndex = specResultLines (s.eventsIndex.take rv.index)) :
    ∃ rv', hydrate s rv = .ok rv'
      ∧ rv'.index = s.eventsIndex.length
      ∧ rv'.serializedIndex = specResultLines s.eventsIndex
      ∧ rv'.serialized = stripTrailingNewline (specResultLines s.eventsIndex) := by
  obtain ⟨rv', hloop, hidx, hser⟩ :=
    hydrateLoop_spec (s.eventsIndex.drop rv.index) rv
      (fun e he => hall e (List.mem_of_mem_drop he))
  have hfetch : s.fetchByIndex rv.index = s.eventsIndex.drop rv.index :=
    fetchByIndex_eq_drop s rv.index hi
  have hfull : rv'.serializedIndex = specResultLines s.eventsIndex := by
    rw [hser, hbuf, ← specResultLines_append, List.take_append_drop]
  refine ⟨rv', ?_, ?_, hfull, ?_⟩
  · unfold hydrate
    rw [hfetch]
    exact hloop
  · rw [hidx]
    simp
    omega
  · show stripTrailingNewline rv'.serializedIndex
        = stripTrailingNewline (specResultLines s.eventsIndex)
    rw [hfull]

/-- Witness for C9: a store holding one accepted deposit and one duplicate
failure hydrates into the two-line report. -/
theorem hydrate_serialized_witness :
    ∃ rv', hydrate fixture.store2 emptyViewRepo = .ok rv'
      ∧ rv'.index = fixture.store2.eventsIndex.length
      ∧ rv'.serializedIndex = specResultLines fixture.store2.eventsIndex
      ∧ rv'.serialized = stripTrailingNewline (specResultLines fixture.store2.eventsIndex) :=
  hydrate_serialized fixture.store2 emptyViewRepo (by decide) (by decide) rfl

end accountview
